import Mathlib

/-!
# Verification of the Coal convex-polytope and query request/result core

A shallow embedding of the core data structures and operations of the
repository (`include/hpp/fcl/collision_data.h` and
`include/hpp/fcl/shape/details/convex.hxx`), with theorems settling the
frozen specification claims.

Modelling conventions:
* `FCL_REAL` (a C++ `double`) is modelled as `ℚ`, an idealized exact scalar.
  The construction-time sentinel `std::numeric_limits<FCL_REAL>::max()`
  (DBL_MAX, which the specification calls "+infinity") is the explicit
  constant `FCL_REAL_max = 2^1024 - 2^971`, the exact value of DBL_MAX.
* IEEE quiet NaN, used by the source only to fill the fields no claim
  inspects numerically (`nearest_points`/`normal` defaults), is modelled by
  the fixed placeholder constant `quietNaN`.
* `const CollisionGeometry*` pointers are modelled as `Option Nat`
  (`none` = `NULL`); only their identity is ever compared by the source.
* `std::vector`/packed buffers are modelled as `List`s.
-/

set_option maxRecDepth 10000

attribute [local semireducible] Rat.add Rat.mul Rat.sub Rat.inv

namespace Coal

/-- The scalar type `FCL_REAL` (C++ `double`), idealized as `ℚ`. -/
abbrev FCL_REAL := ℚ

/-- The exact value of `std::numeric_limits<double>::max()` (DBL_MAX):
`(2 - 2⁻⁵²) · 2¹⁰²³ = 2¹⁰²⁴ - 2⁹⁷¹`.  This is the construction-time
sentinel for `distance_lower_bound` and `min_distance`, which the
specification refers to as "+infinity".  Written as an integer literal so
that it evaluates by `decide`; `FCL_REAL_max_eq` below checks it against
the closed form. -/
def FCL_REAL_max : FCL_REAL := 179769313486231570814527423731704356798070567525844996598917476803157260780028538760589558632766878171540458953514382464234321326889464182768467546703537516986049910576551282076245490090389328944075868508455133942304583236903222948165808559332123348274797826204144723168738177180919299881250404026184124858368

/-- Placeholder for `std::numeric_limits<FCL_REAL>::quiet_NaN()`.  The source
only writes this value into fields (`nearest_points`, `normal`) whose numeric
content no verified claim inspects, so a fixed constant suffices. -/
def quietNaN : FCL_REAL := 0

/-- The 3-vector type `Vec3f` (Eigen `Vector3d`). -/
structure Vec3f where
  x : FCL_REAL
  y : FCL_REAL
  z : FCL_REAL
deriving DecidableEq

namespace Vec3f

/-- Componentwise vector addition. -/
def add (a b : Vec3f) : Vec3f := ⟨a.x + b.x, a.y + b.y, a.z + b.z⟩

instance : Add Vec3f := ⟨add⟩

/-- Division of a vector by a scalar (Eigen `v / s`, `v /= s`). -/
def sdiv (a : Vec3f) (s : FCL_REAL) : Vec3f := ⟨a.x / s, a.y / s, a.z / s⟩

instance : HDiv Vec3f FCL_REAL Vec3f := ⟨sdiv⟩

/-- Multiplication of a vector by a scalar (Eigen `v * s`). -/
def smul (a : Vec3f) (s : FCL_REAL) : Vec3f := ⟨a.x * s, a.y * s, a.z * s⟩

instance : HMul Vec3f FCL_REAL Vec3f := ⟨smul⟩

/-- Eigen `a.cross(b)`. -/
def cross (a b : Vec3f) : Vec3f :=
  ⟨a.y * b.z - a.z * b.y, a.z * b.x - a.x * b.z, a.x * b.y - a.y * b.x⟩

/-- Eigen `a.dot(b)`. -/
def dot (a b : Vec3f) : FCL_REAL := a.x * b.x + a.y * b.y + a.z * b.z

/-- Eigen `Vec3f::Zero()` and the literal `Vec3f(0, 0, 0)`. -/
def zero : Vec3f := ⟨0, 0, 0⟩

/-- Eigen `Vec3f::Constant(quiet_NaN())`, the NaN fill used by
`DistanceResult`'s constructor and `clear()` (see `quietNaN`). -/
def nanFill : Vec3f := ⟨quietNaN, quietNaN, quietNaN⟩

end Vec3f

/-- The warm-start support hint `support_func_guess_t`
(Eigen `Vector2i`, declared in `data_types.h`, outside `src/`): a pair of
support-vertex indices. -/
abbrev support_func_guess_t := Int × Int

/-- Eigen `support_func_guess_t::Zero()`. -/
def support_func_guess_zero : support_func_guess_t := (0, 0)

/-- Eigen `support_func_guess_t::Constant(-1)`. -/
def support_func_guess_neg1 : support_func_guess_t := (-1, -1)

/-- Modelled from the spec: `CPUTimes` (declared in `hpp/fcl/timings.h`,
which is not under `src/`).  The specification only states that result
`clear()` resets the recorded timings to their defaults, so the record is
modelled as the recorded duration with a zero default. -/
structure CPUTimes where
  total : FCL_REAL
deriving DecidableEq

/-- Modelled from the spec: `CPUTimes::clear()` restores the zero default. -/
def CPUTimes.cleared : CPUTimes := ⟨0⟩

/-- The enum `GJKInitialGuess` (declared in `narrowphase/gjk.h`, outside
`src/`): the caching mode selecting how the next solve is warm-started. -/
inductive GJKInitialGuess
  | DefaultGuess
  | CachedGuess
  | BoundingVolumeGuess
deriving DecidableEq

/-- The enum `GJKVariant` (from `narrowphase/gjk.h`, outside `src/`);
only the default constructor value is referenced by the embedded code, so
the enum is modelled abstractly by its tag. -/
abbrev GJKVariant := Nat

/-- The value `GJKVariant::DefaultGJK`. -/
def GJKVariant_DefaultGJK : GJKVariant := 0

/-- The enum `GJKConvergenceCriterion` (outside `src/`), modelled by tag. -/
abbrev GJKConvergenceCriterion := Nat

/-- The value `GJKConvergenceCriterion::VDB`. -/
def GJKConvergenceCriterion_VDB : GJKConvergenceCriterion := 0

/-- The enum `GJKConvergenceCriterionType` (outside `src/`), modelled by
tag. -/
abbrev GJKConvergenceCriterionType := Nat

/-- The value `GJKConvergenceCriterionType::Relative`. -/
def GJKConvergenceCriterionType_Relative : GJKConvergenceCriterionType := 0

/-- The struct `Contact` of `collision_data.h`.  Pointers to the two
`CollisionGeometry` objects are modelled by their identity
(`Option Nat`, `none` = `NULL`). -/
structure Contact where
  o1 : Option Nat
  o2 : Option Nat
  b1 : Int
  b2 : Int
  normal : Vec3f
  nearest_points : Vec3f × Vec3f
  pos : Vec3f
  penetration_depth : FCL_REAL
deriving DecidableEq

namespace Contact

/-- The invalid-primitive marker `Contact::NONE`. -/
def NONE : Int := -1

/-- The default constructor `Contact()`: `o1 = o2 = NULL`,
`b1 = b2 = NONE`; the Eigen vector fields are left uninitialized by the
source and are modelled by the NaN placeholder (no claim depends on them). -/
def dflt : Contact :=
  { o1 := none, o2 := none, b1 := NONE, b2 := NONE, normal := Vec3f.nanFill,
    nearest_points := (Vec3f.nanFill, Vec3f.nanFill), pos := Vec3f.nanFill,
    penetration_depth := quietNaN }

/-- The 8-argument constructor
`Contact(o1, o2, b1, b2, p1, p2, normal, depth)`: stores the two nearest
points and derives `pos = (p1 + p2) / 2`. -/
def mk8 (o1 o2 : Option Nat) (b1 b2 : Int) (p1 p2 normal : Vec3f)
    (depth : FCL_REAL) : Contact :=
  { o1 := o1, o2 := o2, b1 := b1, b2 := b2, normal := normal,
    nearest_points := (p1, p2), pos := (p1 + p2) / (2 : FCL_REAL),
    penetration_depth := depth }

/-- The comparison `Contact::operator==`: it compares `o1`, `o2`, `b1`,
`b2`, `normal`, `pos` and `penetration_depth` (and not `nearest_points`). -/
def eqOp (a b : Contact) : Prop :=
  a.o1 = b.o1 ∧ a.o2 = b.o2 ∧ a.b1 = b.b1 ∧ a.b2 = b.b2 ∧
    a.normal = b.normal ∧ a.pos = b.pos ∧
    a.penetration_depth = b.penetration_depth

instance (a b : Contact) : Decidable (eqOp a b) := by
  unfold eqOp; infer_instance

/-- The comparison `Contact::operator<`: lexicographic on `(b1, b2)`. -/
def ltOp (a b : Contact) : Prop :=
  if a.b1 = b.b1 then a.b2 < b.b2 else a.b1 < b.b1

end Contact

/-- The struct `QueryRequest` of `collision_data.h` (base of the collision
and distance request variants). -/
structure QueryRequest where
  gjk_initial_guess : GJKInitialGuess
  /-- Deprecated flag `enable_cached_gjk_guess`. -/
  enable_cached_gjk_guess : Bool
  gjk_variant : GJKVariant
  gjk_convergence_criterion : GJKConvergenceCriterion
  gjk_convergence_criterion_type : GJKConvergenceCriterionType
  gjk_tolerance : FCL_REAL
  gjk_max_iterations : Nat
  cached_gjk_guess : Vec3f
  cached_support_func_guess : support_func_guess_t
  enable_timings : Bool
  collision_distance_threshold : FCL_REAL
deriving DecidableEq

/-- The struct `QueryResult` of `collision_data.h` (base of result types):
the warm-start cache written back by the solver, and the timings. -/
structure QueryResult where
  cached_gjk_guess : Vec3f
  cached_support_func_guess : support_func_guess_t
  timings : CPUTimes
deriving DecidableEq

namespace QueryRequest

/-- The default constructor `QueryRequest()`.  `gjk_tolerance = 1e-6`,
`collision_distance_threshold` is Eigen's `dummy_precision()` (`1e-12` for
`double`). -/
def init : QueryRequest :=
  { gjk_initial_guess := GJKInitialGuess.DefaultGuess,
    enable_cached_gjk_guess := false,
    gjk_variant := GJKVariant_DefaultGJK,
    gjk_convergence_criterion := GJKConvergenceCriterion_VDB,
    gjk_convergence_criterion_type := GJKConvergenceCriterionType_Relative,
    gjk_tolerance := 1 / 1000000,
    gjk_max_iterations := 128,
    cached_gjk_guess := ⟨1, 0, 0⟩,
    cached_support_func_guess := support_func_guess_zero,
    enable_timings := false,
    collision_distance_threshold := 1 / 1000000000000 }

/-- `QueryRequest::updateGuess(result)`: copies the cached direction and
support hint from the result when `gjk_initial_guess == CachedGuess`, and
then again (second `if` in the source) when the deprecated flag
`enable_cached_gjk_guess` is set. -/
def updateGuess (req : QueryRequest) (result : QueryResult) : QueryRequest :=
  let req1 :=
    if req.gjk_initial_guess = GJKInitialGuess.CachedGuess then
      { req with cached_gjk_guess := result.cached_gjk_guess,
                 cached_support_func_guess := result.cached_support_func_guess }
    else req
  if req1.enable_cached_gjk_guess then
    { req1 with cached_gjk_guess := result.cached_gjk_guess,
                cached_support_func_guess := result.cached_support_func_guess }
  else req1

end QueryRequest

/-- The struct `CollisionResult` of `collision_data.h`, with the fields of
its base `QueryResult` inlined. -/
structure CollisionResult where
  cached_gjk_guess : Vec3f
  cached_support_func_guess : support_func_guess_t
  timings : CPUTimes
  contacts : List Contact
  distance_lower_bound : FCL_REAL
  nearest_points : Vec3f × Vec3f
deriving DecidableEq

namespace CollisionResult

/-- The default constructor `CollisionResult()`:
`QueryResult()` sets the cached guess to zero and the support hint to
`Constant(-1)`; `distance_lower_bound` starts at the
`numeric_limits::max()` sentinel.  The `nearest_points` array is left
uninitialized by the source (Eigen default) and is modelled by the NaN
placeholder; no claim depends on it. -/
def init : CollisionResult :=
  { cached_gjk_guess := Vec3f.zero,
    cached_support_func_guess := support_func_guess_neg1,
    timings := CPUTimes.cleared,
    contacts := [],
    distance_lower_bound := FCL_REAL_max,
    nearest_points := (Vec3f.nanFill, Vec3f.nanFill) }

/-- `CollisionResult::updateDistanceLowerBound`: update the lower bound
only if the candidate is inferior. -/
def updateDistanceLowerBound (r : CollisionResult)
    (distance_lower_bound_ : FCL_REAL) : CollisionResult :=
  if distance_lower_bound_ < r.distance_lower_bound then
    { r with distance_lower_bound := distance_lower_bound_ }
  else r

/-- `CollisionResult::addContact`. -/
def addContact (r : CollisionResult) (c : Contact) : CollisionResult :=
  { r with contacts := r.contacts ++ [c] }

/-- `CollisionResult::isCollision`. -/
def isCollision (r : CollisionResult) : Prop := r.contacts.length > 0

/-- `CollisionResult::numContacts`. -/
def numContacts (r : CollisionResult) : Nat := r.contacts.length

/-- The error message thrown by `getContact`/`setContact` on an empty
contact list. -/
def contactsEmptyMsg : String :=
  "The number of contacts is zero. No Contact can be returned."

/-- `CollisionResult::getContact(i)`: throws `std::invalid_argument` when
no contact is stored; returns contact `i` when `i` is in range and
`contacts.back()` otherwise. -/
def getContact (r : CollisionResult) (i : Nat) : Except String Contact :=
  if r.contacts.length = 0 then Except.error contactsEmptyMsg
  else if i < r.contacts.length then Except.ok (r.contacts.getD i Contact.dflt)
  else Except.ok (r.contacts.getLastD Contact.dflt)

/-- `CollisionResult::clear()`: resets the lower bound to the
`numeric_limits::max()` sentinel (assigned twice in the source, with the
same value), empties the contact list and clears the timings. -/
def clear (r : CollisionResult) : CollisionResult :=
  { r with distance_lower_bound := FCL_REAL_max,
           contacts := [],
           timings := CPUTimes.cleared }

end CollisionResult

/-- The argument tuple of the 8-argument overload
`DistanceResult::update(distance, o1, o2, b1, b2, p1, p2, normal)`. -/
structure DistUpdateArgs where
  distance : FCL_REAL
  o1 : Option Nat
  o2 : Option Nat
  b1 : Int
  b2 : Int
  p1 : Vec3f
  p2 : Vec3f
  normal : Vec3f
deriving DecidableEq

/-- The struct `DistanceResult` of `collision_data.h`, with the fields of
its base `QueryResult` inlined.  The solver-output fields `dw_dq`,
`dw1_dq`, `dw2_dq` (`Matrix36f`) and `optimal_simplex`
(`details::GJK::Simplex`, both types declared outside `src/`) are opaque
to every claim and are not modelled. -/
structure DistanceResult where
  cached_gjk_guess : Vec3f
  cached_support_func_guess : support_func_guess_t
  timings : CPUTimes
  min_distance : FCL_REAL
  nearest_points : Vec3f × Vec3f
  normal : Vec3f
  o1 : Option Nat
  o2 : Option Nat
  b1 : Int
  b2 : Int
deriving DecidableEq

namespace DistanceResult

/-- The invalid-primitive marker `DistanceResult::NONE`. -/
def NONE : Int := -1

/-- The default constructor `DistanceResult()` (default argument
`min_distance_ = numeric_limits::max()`): null objects, `NONE` primitive
ids, NaN-filled nearest points and normal. -/
def init : DistanceResult :=
  { cached_gjk_guess := Vec3f.zero,
    cached_support_func_guess := support_func_guess_neg1,
    timings := CPUTimes.cleared,
    min_distance := FCL_REAL_max,
    nearest_points := (Vec3f.nanFill, Vec3f.nanFill),
    normal := Vec3f.nanFill,
    o1 := none, o2 := none, b1 := NONE, b2 := NONE }

/-- The 8-argument overload of `DistanceResult::update`: replaces the
distance, objects, primitive ids, nearest points and normal together when
`min_distance > distance`, and does nothing otherwise. -/
def update (r : DistanceResult) (u : DistUpdateArgs) : DistanceResult :=
  if r.min_distance > u.distance then
    { r with min_distance := u.distance, o1 := u.o1, o2 := u.o2,
             b1 := u.b1, b2 := u.b2, nearest_points := (u.p1, u.p2),
             normal := u.normal }
  else r

/-- `DistanceResult::clear()`: restores the `numeric_limits::max()`
sentinel, null objects, `NONE` ids, NaN-filled points and normal, and
clears the timings. -/
def clear (r : DistanceResult) : DistanceResult :=
  { r with min_distance := FCL_REAL_max,
           o1 := none, o2 := none, b1 := NONE, b2 := NONE,
           nearest_points := (Vec3f.nanFill, Vec3f.nanFill),
           normal := Vec3f.nanFill,
           timings := CPUTimes.cleared }

/-- The tuple of fields that `update` replaces alongside `min_distance`
(object identities, primitive ids, nearest points, normal). -/
def core (r : DistanceResult) :
    Option Nat × Option Nat × Int × Int × (Vec3f × Vec3f) × Vec3f :=
  (r.o1, r.o2, r.b1, r.b2, r.nearest_points, r.normal)

end DistanceResult

/-- The field tuple that a call to `DistanceResult::update` would install
(cf. `DistanceResult.core`). -/
def DistUpdateArgs.core (u : DistUpdateArgs) :
    Option Nat × Option Nat × Int × Int × (Vec3f × Vec3f) × Vec3f :=
  (u.o1, u.o2, u.b1, u.b2, (u.p1, u.p2), u.normal)

/-!
## The `Convex` polytope (`shape/details/convex.hxx`)

A polygon (`PolygonT`) is its ordered list of vertex indices; the polytope
is its vertex buffer (`points`, a list of `Vec3f`) together with its
polygon list.  Out-of-range vertex indices would be undefined behaviour in
the source; the embedding reads them through `List.getD` with a fixed
default.
-/

/-- A face: the ordered vertex-index list of one `PolygonT`. -/
abbrev Polygon := List Nat

/-- The arithmetic mean of a face's vertices
(`plane_center` in `computeVolume` / `computeCOM` /
`computeMomentofInertia`): the sum of the vertices divided by the face
size. -/
def planeCenter (points : List Vec3f) (polygon : Polygon) : Vec3f :=
  (polygon.foldl (fun acc idx => acc + points.getD idx Vec3f.zero) Vec3f.zero)
    / (polygon.length : FCL_REAL)

/-- The six-times-signed-volume `(v1.cross(v2)).dot(v3)` of the tetrahedron
on edge pair `(j, j+1 mod n)` of a face, with the plane center as third
vertex and the origin as apex. -/
def dSixVol (points : List Vec3f) (polygon : Polygon) (j : Nat) : FCL_REAL :=
  let v1 := points.getD (polygon.getD j 0) Vec3f.zero
  let v2 := points.getD (polygon.getD ((j + 1) % polygon.length) 0) Vec3f.zero
  (v1.cross v2).dot (planeCenter points polygon)

/-- `Convex::computeVolume()`: one pass over the faces, fanning each face
from its plane center into origin-apex tetrahedra and summing their
six-times-signed-volumes; the total is divided by 6. -/
def computeVolume (points : List Vec3f) (polygons : List Polygon) : FCL_REAL :=
  (polygons.foldl
    (fun vol polygon =>
      (List.range polygon.length).foldl
        (fun v j => v + dSixVol points polygon j) vol)
    0) / 6

/-- The tetrahedron term `(points[e_first] + points[e_second] +
plane_center) * d_six_vol` accumulated by `computeCOM`. -/
def comTerm (points : List Vec3f) (polygon : Polygon) (j : Nat) : Vec3f :=
  let v1 := points.getD (polygon.getD j 0) Vec3f.zero
  let v2 := points.getD (polygon.getD ((j + 1) % polygon.length) 0) Vec3f.zero
  (v1 + v2 + planeCenter points polygon) * dSixVol points polygon j

/-- `Convex::computeCOM()`: accumulates the weighted tetrahedron centroids
(`com`) and the six-times-signed-volumes (`vol`) in one pass over the
faces, then returns `com / (vol * 4)` (origin as reference). -/
def computeCOM (points : List Vec3f) (polygons : List Polygon) : Vec3f :=
  let acc := polygons.foldl
    (fun acc polygon =>
      (List.range polygon.length).foldl
        (fun cv j =>
          (cv.1 + comTerm points polygon j, cv.2 + dSixVol points polygon j))
        acc)
    ((Vec3f.zero, 0) : Vec3f × FCL_REAL)
  acc.1 / (acc.2 * 4)

/-!
## Adjacency construction (`Convex::fillNeighbors`)

The transient build structure
`std::vector<std::set<index_type>> nneighbors(num_points)` is modelled as a
`num_points`-long list of neighbor lists; each `std::set` is modelled by a
duplicate-free list with `insertIfAbsent` mirroring the source's
membership test followed by insertion (`if (set.count(x) == 0) insert`).
Only the set's membership and size are ever consumed (the packed-buffer
flattening order is the `std::set` iteration order, which no claim
observes).
-/

/-- Insertion into a per-vertex deduplicating neighbor set:
`if (nneighbors[pj].count(x) == 0) nneighbors[pj].insert(x)`. -/
def insertIfAbsent (s : List Nat) (x : Nat) : List Nat :=
  if x ∈ s then s else x :: s

/-- In-place update of entry `i` of the vector of neighbor sets
(`nneighbors[i]`); indices beyond the vector's length leave it unchanged
(such an access would be undefined behaviour in the source). -/
def modifyIdx : List (List Nat) → Nat → (List Nat → List Nat) → List (List Nat)
  | [], _, _ => []
  | a :: as, 0, f => f a :: as
  | a :: as, n + 1, f => a :: modifyIdx as n f

/-- The predecessor position `i = (j == 0) ? n - 1 : j - 1` of the inner
loop of `fillNeighbors`. -/
def predIdx (n j : Nat) : Nat := if j = 0 then n - 1 else j - 1

/-- The successor position `k = (j == n - 1) ? 0 : j + 1` of the inner
loop of `fillNeighbors`. -/
def succIdx (n j : Nat) : Nat := if j = n - 1 then 0 else j + 1

/-- One iteration of the inner loop of `fillNeighbors`: registers the
predecessor `pi` and the successor `pk` as neighbors of the vertex `pj` at
position `j` of the face. -/
def addVertexNeighbors (polygon : Polygon) (j : Nat)
    (s : List (List Nat)) : List (List Nat) :=
  let n := polygon.length
  let pi := polygon.getD (predIdx n j) 0
  let pj := polygon.getD j 0
  let pk := polygon.getD (succIdx n j) 0
  modifyIdx (modifyIdx s pj (fun l => insertIfAbsent l pi)) pj
    (fun l => insertIfAbsent l pk)

/-- The inner loop of `fillNeighbors` over the positions `j = 0, …, m - 1`
of one face. -/
def addPositions (polygon : Polygon) (s : List (List Nat)) :
    Nat → List (List Nat)
  | 0 => s
  | m + 1 => addVertexNeighbors polygon m (addPositions polygon s m)

/-- Processing one face of the outer loop of `fillNeighbors`. -/
def addPolygonNeighbors (polygon : Polygon) (s : List (List Nat)) :
    List (List Nat) :=
  addPositions polygon s polygon.length

/-- The per-vertex deduplicating neighbor sets accumulated by the loop of
`fillNeighbors` over all faces, starting from `num_points` empty sets. -/
def neighborSets (num_points : Nat) (polygons : List Polygon) :
    List (List Nat) :=
  polygons.foldl (fun s polygon => addPolygonNeighbors polygon s)
    (List.replicate num_points [])

/-- One flattened `Neighbors` record: the stored one-byte count `count_`
and the vertex's slice of the packed neighbor buffer (modelled by the
neighbor set itself). -/
structure Neighbors where
  count_ : Nat
  n_ : List Nat
deriving DecidableEq

/-- A default `Neighbors` record (used only as the out-of-range fallback of
`List.getD`). -/
def Neighbors.dflt : Neighbors := ⟨0, []⟩

/-- The error message of `HPP_FCL_THROW_PRETTY("Too many neighbors.", …)`. -/
def tooManyNeighborsMsg : String := "Too many neighbors."

/-- The flattening loop of `fillNeighbors` over vertices `i = 0, …, n - 1`:
throws as soon as a vertex's set size reaches
`std::numeric_limits<unsigned char>::max()` (255), otherwise stores the
count and the neighbors. -/
def flattenNeighbors (s : List (List Nat)) :
    Nat → Except String (List Neighbors)
  | 0 => Except.ok []
  | n + 1 =>
    match flattenNeighbors s n with
    | Except.error e => Except.error e
    | Except.ok t =>
      if 255 ≤ (s.getD n []).length then Except.error tooManyNeighborsMsg
      else Except.ok (t ++ [⟨(s.getD n []).length, s.getD n []⟩])

/-- `Convex::fillNeighbors()` (run by the constructor and by `set`): builds
the per-vertex neighbor sets from the faces, then flattens them, failing
when a vertex's neighbor count reaches 255. -/
def fillNeighbors (num_points : Nat) (polygons : List Polygon) :
    Except String (List Neighbors) :=
  flattenNeighbors (neighborSets num_points polygons) num_points

/-!
## Adjacency lemmas

`adjFace p v u` captures exactly when the inner loop of `fillNeighbors`
registers `u` as a neighbor of `v` while processing face `p`: some
position `j` of `p` holds `v`, and its cyclic predecessor or successor
position holds `u`.
-/

/-- Vertex `u` is face-adjacent to vertex `v` on face `p`. -/
def adjFace (p : Polygon) (v u : Nat) : Prop :=
  ∃ j, j < p.length ∧ p.getD j 0 = v ∧
    (p.getD (predIdx p.length j) 0 = u ∨ p.getD (succIdx p.length j) 0 = u)

theorem length_modifyIdx (s : List (List Nat)) (i : Nat)
    (f : List Nat → List Nat) : (modifyIdx s i f).length = s.length := by
  induction s generalizing i with
  | nil => rfl
  | cons a as ih =>
    cases i with
    | zero => rfl
    | succ n => simp [modifyIdx, ih]

theorem getD_modifyIdx_self (s : List (List Nat)) (i : Nat)
    (f : List Nat → List Nat) (h : i < s.length) :
    (modifyIdx s i f).getD i [] = f (s.getD i []) := by
  induction s generalizing i with
  | nil => simp at h
  | cons a as ih =>
    cases i with
    | zero => rfl
    | succ n =>
      simp only [modifyIdx, List.getD_cons_succ]
      exact ih n (by simpa using h)

theorem getD_modifyIdx_ne (s : List (List Nat)) (i v : Nat)
    (f : List Nat → List Nat) (h : v ≠ i) :
    (modifyIdx s i f).getD v [] = s.getD v [] := by
  induction s generalizing i v with
  | nil => rfl
  | cons a as ih =>
    cases i with
    | zero =>
      cases v with
      | zero => exact absurd rfl h
      | succ m => rfl
    | succ n =>
      cases v with
      | zero => rfl
      | succ m =>
        simp only [modifyIdx, List.getD_cons_succ]
        exact ih n m (fun he => h (by rw [he]))

theorem mem_insertIfAbsent (s : List Nat) (x u : Nat) :
    u ∈ insertIfAbsent s x ↔ u = x ∨ u ∈ s := by
  unfold insertIfAbsent
  by_cases hx : x ∈ s
  · rw [if_pos hx]
    constructor
    · exact Or.inr
    · rintro (rfl | h)
      · exact hx
      · exact h
  · rw [if_neg hx]
    exact List.mem_cons

theorem length_addVertexNeighbors (p : Polygon) (j : Nat)
    (s : List (List Nat)) :
    (addVertexNeighbors p j s).length = s.length := by
  unfold addVertexNeighbors
  rw [length_modifyIdx, length_modifyIdx]

theorem mem_addVertexNeighbors (p : Polygon) (j : Nat) (s : List (List Nat))
    (v u : Nat) (hv : v < s.length) :
    u ∈ (addVertexNeighbors p j s).getD v [] ↔
      u ∈ s.getD v [] ∨
        (p.getD j 0 = v ∧
          (p.getD (predIdx p.length j) 0 = u ∨
            p.getD (succIdx p.length j) 0 = u)) := by
  unfold addVertexNeighbors
  by_cases hj : p.getD j 0 = v
  · subst hj
    rw [getD_modifyIdx_self _ _ _ (by rw [length_modifyIdx]; exact hv),
      getD_modifyIdx_self _ _ _ hv, mem_insertIfAbsent, mem_insertIfAbsent]
    constructor
    · rintro (rfl | rfl | h)
      · exact Or.inr ⟨rfl, Or.inr rfl⟩
      · exact Or.inr ⟨rfl, Or.inl rfl⟩
      · exact Or.inl h
    · rintro (h | ⟨-, rfl | rfl⟩)
      · exact Or.inr (Or.inr h)
      · exact Or.inr (Or.inl rfl)
      · exact Or.inl rfl
  · rw [getD_modifyIdx_ne _ _ _ _ (fun he => hj he.symm),
      getD_modifyIdx_ne _ _ _ _ (fun he => hj he.symm)]
    constructor
    · exact Or.inl
    · rintro (h | ⟨he, -⟩)
      · exact h
      · exact absurd he hj

theorem length_addPositions (p : Polygon) (s : List (List Nat)) (m : Nat) :
    (addPositions p s m).length = s.length := by
  induction m with
  | zero => rfl
  | succ m ih =>
    unfold addPositions
    rw [length_addVertexNeighbors, ih]

theorem mem_addPositions (p : Polygon) (s : List (List Nat)) (m : Nat)
    (v u : Nat) (hv : v < s.length) :
    u ∈ (addPositions p s m).getD v [] ↔
      u ∈ s.getD v [] ∨
        ∃ j, j < m ∧ p.getD j 0 = v ∧
          (p.getD (predIdx p.length j) 0 = u ∨
            p.getD (succIdx p.length j) 0 = u) := by
  induction m with
  | zero =>
    simp only [addPositions]
    constructor
    · exact Or.inl
    · rintro (h | ⟨j, hj, -⟩)
      · exact h
      · exact absurd hj (Nat.not_lt_zero j)
  | succ m ih =>
    unfold addPositions
    rw [mem_addVertexNeighbors _ _ _ _ _ (by rw [length_addPositions]; exact hv),
      ih]
    constructor
    · rintro ((h | ⟨j, hj, hjv, hju⟩) | ⟨hmv, hmu⟩)
      · exact Or.inl h
      · exact Or.inr ⟨j, Nat.lt_succ_of_lt hj, hjv, hju⟩
      · exact Or.inr ⟨m, Nat.lt_succ_self m, hmv, hmu⟩
    · rintro (h | ⟨j, hj, hjv, hju⟩)
      · exact Or.inl (Or.inl h)
      · rcases Nat.lt_succ_iff_lt_or_eq.mp hj with hjm | rfl
        · exact Or.inl (Or.inr ⟨j, hjm, hjv, hju⟩)
        · exact Or.inr ⟨hjv, hju⟩

theorem length_addPolygonNeighbors (p : Polygon) (s : List (List Nat)) :
    (addPolygonNeighbors p s).length = s.length :=
  length_addPositions p s p.length

theorem mem_addPolygonNeighbors (p : Polygon) (s : List (List Nat))
    (v u : Nat) (hv : v < s.length) :
    u ∈ (addPolygonNeighbors p s).getD v [] ↔
      u ∈ s.getD v [] ∨ adjFace p v u :=
  mem_addPositions p s p.length v u hv

theorem getD_replicate_nil (n v : Nat) :
    (List.replicate n ([] : List Nat)).getD v [] = [] := by
  induction n generalizing v with
  | zero => rfl
  | succ m ih =>
    cases v with
    | zero => rfl
    | succ w =>
      simp only [List.replicate_succ, List.getD_cons_succ]
      exact ih w

theorem modifyIdx_out (s : List (List Nat)) (i : Nat)
    (f : List Nat → List Nat) (h : s.length ≤ i) : modifyIdx s i f = s := by
  induction s generalizing i with
  | nil => rfl
  | cons a as ih =>
    cases i with
    | zero => simp at h
    | succ n =>
      simp only [modifyIdx]
      rw [ih n (by simpa using h)]

theorem nodup_insertIfAbsent (s : List Nat) (x : Nat) (h : s.Nodup) :
    (insertIfAbsent s x).Nodup := by
  unfold insertIfAbsent
  by_cases hx : x ∈ s
  · rw [if_pos hx]; exact h
  · rw [if_neg hx]; exact List.nodup_cons.mpr ⟨hx, h⟩

theorem allNodup_modifyIdx (s : List (List Nat)) (i : Nat)
    (f : List Nat → List Nat) (hf : ∀ l, l.Nodup → (f l).Nodup)
    (h : ∀ v, (s.getD v []).Nodup) :
    ∀ v, ((modifyIdx s i f).getD v []).Nodup := by
  intro v
  by_cases hvi : v = i
  · subst hvi
    rcases lt_or_le v s.length with hvs | hvs
    · rw [getD_modifyIdx_self s v f hvs]
      exact hf _ (h v)
    · rw [modifyIdx_out s v f hvs]
      exact h v
  · rw [getD_modifyIdx_ne s i v f hvi]
    exact h v

theorem allNodup_addVertexNeighbors (p : Polygon) (j : Nat)
    (s : List (List Nat)) (h : ∀ v, (s.getD v []).Nodup) :
    ∀ v, ((addVertexNeighbors p j s).getD v []).Nodup := by
  unfold addVertexNeighbors
  exact allNodup_modifyIdx _ _ _
    (fun l hl => nodup_insertIfAbsent l _ hl)
    (allNodup_modifyIdx _ _ _ (fun l hl => nodup_insertIfAbsent l _ hl) h)

theorem allNodup_addPositions (p : Polygon) (s : List (List Nat)) (m : Nat)
    (h : ∀ v, (s.getD v []).Nodup) :
    ∀ v, ((addPositions p s m).getD v []).Nodup := by
  induction m with
  | zero => exact h
  | succ m ih => exact allNodup_addVertexNeighbors p m _ ih

/-- Every accumulated per-vertex neighbor list is duplicate-free (it
models a `std::set`), so its length is the number of *distinct* neighbors
the vertex accumulated. -/
theorem neighborSets_nodup (np : Nat) (polys : List Polygon) :
    ∀ v, ((neighborSets np polys).getD v []).Nodup := by
  unfold neighborSets
  have hbase : ∀ v,
      ((List.replicate np ([] : List Nat)).getD v []).Nodup := by
    intro v
    rw [getD_replicate_nil]
    exact List.nodup_nil
  revert hbase
  generalize List.replicate np ([] : List Nat) = s
  induction polys generalizing s with
  | nil => exact fun h => h
  | cons p ps ih =>
    intro h
    simp only [List.foldl_cons]
    exact ih _ (allNodup_addPositions p s p.length h)

theorem length_foldl_addPolygon (polys : List Polygon)
    (s : List (List Nat)) :
    (polys.foldl (fun s polygon => addPolygonNeighbors polygon s) s).length =
      s.length := by
  induction polys generalizing s with
  | nil => rfl
  | cons p ps ih =>
    simp only [List.foldl_cons]
    rw [ih, length_addPolygonNeighbors]

theorem mem_foldl_addPolygon (polys : List Polygon) (s : List (List Nat))
    (v u : Nat) (hv : v < s.length) :
    u ∈ (polys.foldl (fun s polygon => addPolygonNeighbors polygon s) s).getD
        v [] ↔
      u ∈ s.getD v [] ∨ ∃ p ∈ polys, adjFace p v u := by
  induction polys generalizing s with
  | nil =>
    simp only [List.foldl_nil]
    constructor
    · exact Or.inl
    · rintro (h | ⟨p, hp, -⟩)
      · exact h
      · exact absurd hp (List.not_mem_nil p)
  | cons p ps ih =>
    simp only [List.foldl_cons]
    rw [ih _ (by rw [length_addPolygonNeighbors]; exact hv),
      mem_addPolygonNeighbors _ _ _ _ hv]
    constructor
    · rintro ((h | hadj) | ⟨q, hq, hadj⟩)
      · exact Or.inl h
      · exact Or.inr ⟨p, List.mem_cons_self p ps, hadj⟩
      · exact Or.inr ⟨q, List.mem_cons_of_mem p hq, hadj⟩
    · rintro (h | ⟨q, hq, hadj⟩)
      · exact Or.inl (Or.inl h)
      · rcases List.mem_cons.mp hq with rfl | hq'
        · exact Or.inl (Or.inr hadj)
        · exact Or.inr ⟨q, hq', hadj⟩

/-- Membership characterization of the accumulated neighbor sets: `u` is
recorded as a neighbor of a valid vertex `v` exactly when some face makes
them cyclically adjacent. -/
theorem mem_neighborSets (np : Nat) (polys : List Polygon) (v u : Nat)
    (hv : v < np) :
    u ∈ (neighborSets np polys).getD v [] ↔ ∃ p ∈ polys, adjFace p v u := by
  unfold neighborSets
  rw [mem_foldl_addPolygon _ _ _ _ (by rw [List.length_replicate]; exact hv),
    getD_replicate_nil]
  simp only [List.not_mem_nil, false_or]

/-- Face adjacency is symmetric: if position `j` of the face holds `v`
with `u` at its cyclic predecessor (resp. successor), then the predecessor
(resp. successor) position holds `u` with `v` at its cyclic successor
(resp. predecessor). -/
theorem adjFace_symm (p : Polygon) (v u : Nat) (h : adjFace p v u) :
    adjFace p u v := by
  obtain ⟨j, hj, hjv, hju⟩ := h
  rcases hju with hpred | hsucc
  · refine ⟨predIdx p.length j, ?_, hpred, Or.inr ?_⟩
    · unfold predIdx
      split <;> omega
    · have hs : succIdx p.length (predIdx p.length j) = j := by
        unfold predIdx succIdx
        by_cases h0 : j = 0
        · rw [if_pos h0, if_pos rfl]
          omega
        · rw [if_neg h0, if_neg (by omega)]
          omega
      rw [hs]; exact hjv
  · refine ⟨succIdx p.length j, ?_, hsucc, Or.inl ?_⟩
    · unfold succIdx
      split <;> omega
    · have hs : predIdx p.length (succIdx p.length j) = j := by
        unfold predIdx succIdx
        by_cases hn : j = p.length - 1
        · rw [if_pos hn, if_pos rfl]
          omega
        · rw [if_neg hn, if_neg (by omega)]
          omega
      rw [hs]; exact hjv

/-- Symmetry of the accumulated neighbor sets over valid vertices. -/
theorem neighborSets_symm (np : Nat) (polys : List Polygon) (u v : Nat)
    (hu : u < np) (hv : v < np) :
    u ∈ (neighborSets np polys).getD v [] ↔
      v ∈ (neighborSets np polys).getD u [] := by
  rw [mem_neighborSets np polys v u hv, mem_neighborSets np polys u v hu]
  constructor
  · rintro ⟨p, hp, hadj⟩
    exact ⟨p, hp, adjFace_symm p v u hadj⟩
  · rintro ⟨p, hp, hadj⟩
    exact ⟨p, hp, adjFace_symm p u v hadj⟩

/-!
## Flattening lemmas
-/

theorem flattenNeighbors_succ_ok (s : List (List Nat)) (n : Nat)
    (t' : List Neighbors) (h : flattenNeighbors s n = Except.ok t') :
    flattenNeighbors s (n + 1) =
      if 255 ≤ (s.getD n []).length then Except.error tooManyNeighborsMsg
      else Except.ok (t' ++ [⟨(s.getD n []).length, s.getD n []⟩]) := by
  unfold flattenNeighbors
  rw [h]

theorem flattenNeighbors_succ_err (s : List (List Nat)) (n : Nat)
    (e : String) (h : flattenNeighbors s n = Except.error e) :
    flattenNeighbors s (n + 1) = Except.error e := by
  unfold flattenNeighbors
  rw [h]

theorem flatten_ok_iff (s : List (List Nat)) (n : Nat) :
    (∃ t, flattenNeighbors s n = Except.ok t) ↔
      ∀ i, i < n → (s.getD i []).length < 255 := by
  induction n with
  | zero =>
    constructor
    · intro _ i hi
      exact absurd hi (Nat.not_lt_zero i)
    · intro _
      exact ⟨[], rfl⟩
  | succ n ih =>
    constructor
    · rintro ⟨t, ht⟩
      cases hprev : flattenNeighbors s n with
      | error e =>
        rw [flattenNeighbors_succ_err s n e hprev] at ht
        exact absurd ht (by simp)
      | ok t' =>
        rw [flattenNeighbors_succ_ok s n t' hprev] at ht
        by_cases hlen : 255 ≤ (s.getD n []).length
        · rw [if_pos hlen] at ht
          exact absurd ht (by simp)
        · intro i hi
          rcases Nat.lt_succ_iff_lt_or_eq.mp hi with hin | rfl
          · exact (ih.mp ⟨t', hprev⟩) i hin
          · omega
    · intro hall
      obtain ⟨t', ht'⟩ := ih.mpr (fun i hi => hall i (Nat.lt_succ_of_lt hi))
      rw [flattenNeighbors_succ_ok s n t' ht',
        if_neg (by have := hall n (Nat.lt_succ_self n); omega)]
      exact ⟨t' ++ [⟨(s.getD n []).length, s.getD n []⟩], rfl⟩

theorem flatten_ok_spec (s : List (List Nat)) (n : Nat)
    (t : List Neighbors) (h : flattenNeighbors s n = Except.ok t) :
    t.length = n ∧
      ∀ i, i < n →
        t.getD i Neighbors.dflt =
          ⟨(s.getD i []).length, s.getD i []⟩ := by
  induction n generalizing t with
  | zero =>
    cases h
    exact ⟨rfl, fun i hi => absurd hi (Nat.not_lt_zero i)⟩
  | succ n ih =>
    cases hprev : flattenNeighbors s n with
    | error e =>
      rw [flattenNeighbors_succ_err s n e hprev] at h
      exact absurd h (by simp)
    | ok t' =>
      rw [flattenNeighbors_succ_ok s n t' hprev] at h
      by_cases hlen : 255 ≤ (s.getD n []).length
      · rw [if_pos hlen] at h
        exact absurd h (by simp)
      · rw [if_neg hlen] at h
        obtain rfl : t' ++ [(⟨(s.getD n []).length, s.getD n []⟩ : Neighbors)]
            = t := by
          cases h; rfl
        obtain ⟨hlen', hvals⟩ := ih t' hprev
        constructor
        · rw [List.length_append, hlen']
          rfl
        · intro i hi
          rcases Nat.lt_succ_iff_lt_or_eq.mp hi with hin | rfl
          · rw [List.getD_append _ _ _ _ (by rw [hlen']; exact hin)]
            exact hvals i hin
          · rw [List.getD_append_right _ _ _ _ (by rw [hlen']),
              hlen', Nat.sub_self, List.getD_cons_zero]

/-!
## Concrete inputs used by counterexamples and witnesses
-/

/-- The unit cube of the specification: 8 vertices at `(±0.5, ±0.5, ±0.5)`. -/
def cubePoints : List Vec3f :=
  [⟨-1/2, -1/2, -1/2⟩, ⟨1/2, -1/2, -1/2⟩, ⟨1/2, 1/2, -1/2⟩, ⟨-1/2, 1/2, -1/2⟩,
   ⟨-1/2, -1/2, 1/2⟩, ⟨1/2, -1/2, 1/2⟩, ⟨1/2, 1/2, 1/2⟩, ⟨-1/2, 1/2, 1/2⟩]

/-- The 6 quadrilateral faces of the unit cube, consistently wound outward. -/
def cubePolygons : List Polygon :=
  [[0, 3, 2, 1], [4, 5, 6, 7], [0, 1, 5, 4], [1, 2, 6, 5], [2, 3, 7, 6],
   [3, 0, 4, 7]]

/-- A triangle-fan polytope over 256 vertices in which the apex vertex `0`
accumulates exactly 255 distinct neighbors (`1, …, 255`): 127 disjoint
triangles `[0, 2i+1, 2i+2]` contribute the neighbors `1, …, 254`, and the
final triangle `[0, 254, 255]` adds `255`. -/
def fanPolygons : List Polygon :=
  (List.range 127).map (fun i => [0, 2 * i + 1, 2 * i + 2]) ++ [[0, 254, 255]]

/-- Two `Contact`s built by the 8-argument constructor that agree on every
compared component (same derived `pos = (p1 + p2) / 2`) but store different
nearest-point pairs. -/
def contactA : Contact :=
  Contact.mk8 (some 1) (some 2) 3 4 ⟨0, 0, 0⟩ ⟨2, 0, 0⟩ ⟨0, 0, 1⟩ (1 / 2)

/-- See `contactA`: same compared components, different nearest points. -/
def contactB : Contact :=
  Contact.mk8 (some 1) (some 2) 3 4 ⟨1, 0, 0⟩ ⟨1, 0, 0⟩ ⟨0, 0, 1⟩ (1 / 2)

/-- A request whose caching mode is the default but whose deprecated
`enable_cached_gjk_guess` flag is set. -/
def reqFlagOnly : QueryRequest :=
  { QueryRequest.init with enable_cached_gjk_guess := true }

/-- A result carrying a cached guess different from the request defaults. -/
def resNine : QueryResult :=
  { cached_gjk_guess := ⟨9, 9, 9⟩, cached_support_func_guess := (5, 6),
    timings := CPUTimes.cleared }

/-- A collision result holding two concrete contacts. -/
def crTwo : CollisionResult :=
  { CollisionResult.init with contacts := [contactA, contactB] }

/-- A single triangular face over 3 vertices. -/
def triPolygons : List Polygon := [[0, 1, 2]]

/-- The neighbor table that `fillNeighbors 3 triPolygons` builds. -/
def triTable : List Neighbors :=
  [⟨2, [1, 2]⟩, ⟨2, [2, 0]⟩, ⟨2, [0, 1]⟩]

/-!
## Helper lemmas
-/

theorem getLastD_eq_getD {α : Type} (l : List α) (d : α) :
    l.getLastD d = l.getD (l.length - 1) d := by
  rw [List.getLastD_eq_getLast?, List.getLast?_eq_getElem?,
    List.getD_eq_getElem?_getD]

theorem foldl_min_le_init (ds : List FCL_REAL) (x : FCL_REAL) :
    ds.foldl min x ≤ x := by
  induction ds generalizing x with
  | nil => exact le_refl x
  | cons d ds ih => exact le_trans (ih (min x d)) (min_le_left x d)

theorem dlb_update_eq_min (r : CollisionResult) (d : FCL_REAL) :
    (r.updateDistanceLowerBound d).distance_lower_bound =
      min r.distance_lower_bound d := by
  unfold CollisionResult.updateDistanceLowerBound
  rcases lt_or_le d r.distance_lower_bound with h | h
  · rw [if_pos h]; exact (min_eq_right h.le).symm
  · rw [if_neg (not_lt.mpr h)]; exact (min_eq_left h).symm

theorem dlb_foldl (ds : List FCL_REAL) (r : CollisionResult) :
    (ds.foldl CollisionResult.updateDistanceLowerBound r).distance_lower_bound
      = ds.foldl min r.distance_lower_bound := by
  induction ds generalizing r with
  | nil => rfl
  | cons d ds ih =>
    simp only [List.foldl_cons, ih, dlb_update_eq_min]

/-- A default argument tuple (placeholder for out-of-range `List.getD`). -/
def DistUpdateArgs.dflt : DistUpdateArgs :=
  { distance := 0, o1 := none, o2 := none, b1 := -1, b2 := -1,
    p1 := Vec3f.zero, p2 := Vec3f.zero, normal := Vec3f.zero }

/-- The minimum of a distance sequence (`FCL_REAL_max` for the empty one). -/
def minListD : List FCL_REAL → FCL_REAL
  | [] => FCL_REAL_max
  | d :: ds => ds.foldl min d

theorem update_of_lt (r : DistanceResult) (u : DistUpdateArgs)
    (h : u.distance < r.min_distance) :
    r.update u =
      { r with min_distance := u.distance, o1 := u.o1, o2 := u.o2,
               b1 := u.b1, b2 := u.b2, nearest_points := (u.p1, u.p2),
               normal := u.normal } := by
  unfold DistanceResult.update
  rw [if_pos h]

theorem update_of_ge (r : DistanceResult) (u : DistUpdateArgs)
    (h : r.min_distance ≤ u.distance) : r.update u = r := by
  unfold DistanceResult.update
  rw [if_neg (not_lt.mpr h)]

theorem minDist_update (r : DistanceResult) (u : DistUpdateArgs) :
    (r.update u).min_distance = min r.min_distance u.distance := by
  rcases lt_or_le u.distance r.min_distance with h | h
  · rw [update_of_lt r u h]; exact (min_eq_right h.le).symm
  · rw [update_of_ge r u h]; exact (min_eq_left h).symm

theorem minDist_foldl (us : List DistUpdateArgs) (s : DistanceResult) :
    (us.foldl DistanceResult.update s).min_distance =
      (us.map DistUpdateArgs.distance).foldl min s.min_distance := by
  induction us generalizing s with
  | nil => rfl
  | cons u us ih =>
    simp only [List.foldl_cons, List.map_cons, ih, minDist_update]

theorem foldl_min_from_max (ds : List FCL_REAL) (h : ds ≠ [])
    (hle : ∀ d ∈ ds, d ≤ FCL_REAL_max) :
    ds.foldl min FCL_REAL_max = minListD ds := by
  cases ds with
  | nil => exact absurd rfl h
  | cons d ds =>
    simp only [List.foldl_cons, minListD]
    rw [min_eq_right (hle d (List.mem_cons_self d ds))]

/-- Case analysis on a run of `DistanceResult::update` calls from an
arbitrary state: either no call strictly improved the current minimum and
the state is untouched, or the final state's distance and associated
fields are those of the first call attaining the final minimum. -/
theorem update_run_cases (us : List DistUpdateArgs) (s : DistanceResult) :
    (us.foldl DistanceResult.update s = s ∧
      ∀ u ∈ us, s.min_distance ≤ u.distance) ∨
    (∃ i, i < us.length ∧
      (us.getD i DistUpdateArgs.dflt).distance =
        (us.foldl DistanceResult.update s).min_distance ∧
      (us.foldl DistanceResult.update s).min_distance < s.min_distance ∧
      (∀ j, j < i →
        (us.foldl DistanceResult.update s).min_distance <
          (us.getD j DistUpdateArgs.dflt).distance) ∧
      (us.foldl DistanceResult.update s).core =
        (us.getD i DistUpdateArgs.dflt).core) := by
  induction us generalizing s with
  | nil =>
    left
    exact ⟨rfl, by intro u hu; exact absurd hu (List.not_mem_nil u)⟩
  | cons u us ih =>
    simp only [List.foldl_cons]
    rcases lt_or_le u.distance s.min_distance with hlt | hge
    · have hmin : (s.update u).min_distance = u.distance := by
        rw [update_of_lt s u hlt]
      have hcore : (s.update u).core = u.core := by
        rw [update_of_lt s u hlt]; rfl
      rcases ih (s.update u) with ⟨heq, _⟩ | ⟨i, hi, hd, hlt', hfirst, hc⟩
      · right
        refine ⟨0, Nat.succ_pos _, ?_, ?_, ?_, ?_⟩
        · rw [heq, List.getD_cons_zero, hmin]
        · rw [heq, hmin]; exact hlt
        · intro j hj; exact absurd hj (Nat.not_lt_zero j)
        · rw [heq, List.getD_cons_zero]; exact hcore
      · right
        refine ⟨i + 1, Nat.succ_lt_succ hi, ?_, ?_, ?_, ?_⟩
        · rw [List.getD_cons_succ]; exact hd
        · exact lt_trans (hmin ▸ hlt') hlt
        · intro j hj
          cases j with
          | zero =>
            rw [List.getD_cons_zero]
            exact hmin ▸ hlt'
          | succ j' =>
            rw [List.getD_cons_succ]
            exact hfirst j' (Nat.lt_of_succ_lt_succ hj)
        · rw [List.getD_cons_succ]; exact hc
    · rw [update_of_ge s u hge]
      rcases ih s with ⟨heq, hall⟩ | ⟨i, hi, hd, hlt', hfirst, hc⟩
      · left
        refine ⟨heq, ?_⟩
        intro v hv
        rcases List.mem_cons.mp hv with h | h
        · exact h ▸ hge
        · exact hall v h
      · right
        refine ⟨i + 1, Nat.succ_lt_succ hi, ?_, hlt', ?_, ?_⟩
        · rw [List.getD_cons_succ]; exact hd
        · intro j hj
          cases j with
          | zero =>
            rw [List.getD_cons_zero]
            exact lt_of_lt_of_le hlt' hge
          | succ j' =>
            rw [List.getD_cons_succ]
            exact hfirst j' (Nat.lt_of_succ_lt_succ hj)
        · rw [List.getD_cons_succ]; exact hc

/-!
## Claims C1 and C3
-/

/-- C1 (counterexample): on the fan polytope every vertex accumulates at
most 255 distinct neighbors (vertex 0 accumulates exactly 255), yet the
adjacency construction fails with the degenerate-geometry error, because
the source rejects a vertex already at
`nneighbors[i].size() >= numeric_limits<unsigned char>::max()`, i.e. at
255, not only above it. -/
theorem neighborCapacity_at_255_fails :
    (∀ v ∈ List.range 256,
      ((neighborSets 256 fanPolygons).getD v []).length ≤ 255) ∧
    ((neighborSets 256 fanPolygons).getD 0 []).length = 255 ∧
    fillNeighbors 256 fanPolygons = Except.error tooManyNeighborsMsg :=
  ⟨by decide, by decide, rfl⟩

/-- C1 (amended): adjacency construction (`fillNeighbors`, run by the
`Convex` constructor and by `set`) succeeds exactly when every vertex
accumulates at most 254 distinct neighbors, and fails with the
degenerate-geometry error exactly when some vertex accumulates 255 or
more; on success nothing is truncated — each vertex's stored one-byte
count equals the full size of its accumulated neighbor set and the stored
neighbors are exactly that set.  The accumulated per-vertex neighbor lists
are duplicate-free, so their lengths count *distinct* neighbors. -/
theorem fillNeighbors_capacity (np : Nat) (polys : List Polygon) :
    ((∃ t, fillNeighbors np polys = Except.ok t) ↔
      ∀ v, v < np → ((neighborSets np polys).getD v []).length ≤ 254) ∧
    (∀ t, fillNeighbors np polys = Except.ok t →
      t.length = np ∧
        ∀ v, v < np →
          t.getD v Neighbors.dflt =
            ⟨((neighborSets np polys).getD v []).length,
              (neighborSets np polys).getD v []⟩) ∧
    (∀ v, ((neighborSets np polys).getD v []).Nodup) := by
  refine ⟨?_, ?_, neighborSets_nodup np polys⟩
  · unfold fillNeighbors
    rw [flatten_ok_iff]
    constructor
    · intro h v hv
      have := h v hv
      omega
    · intro h v hv
      have := h v hv
      omega
  · exact fun t ht => flatten_ok_spec _ _ _ ht

/-- C1 (witness): the triangle's vertices each accumulate 2 ≤ 254
neighbors, so by the amended capacity theorem construction succeeds. -/
theorem fillNeighbors_capacity_witness :
    ∃ t, fillNeighbors 3 triPolygons = Except.ok t :=
  (fillNeighbors_capacity 3 triPolygons).1.mpr (by decide)

/-- C3: if construction succeeds, the resulting neighbor table is
symmetric — for all vertex indices `u`, `v` of the polytope, `u` appears
among the stored neighbors of `v` iff `v` appears among the stored
neighbors of `u`. -/
theorem neighborTable_symmetric (np : Nat) (polys : List Polygon)
    (t : List Neighbors) (ht : fillNeighbors np polys = Except.ok t)
    (u v : Nat) (hu : u < np) (hv : v < np) :
    u ∈ (t.getD v Neighbors.dflt).n_ ↔ v ∈ (t.getD u Neighbors.dflt).n_ := by
  obtain ⟨-, hvals⟩ := flatten_ok_spec _ _ _ ht
  rw [hvals v hv, hvals u hu]
  exact neighborSets_symm np polys u v hu hv

/-- C3 (witness): on the triangle's table, vertex 1 neighbors vertex 2
iff vertex 2 neighbors vertex 1. -/
theorem neighborTable_symmetric_witness :
    1 ∈ (triTable.getD 2 Neighbors.dflt).n_ ↔
      2 ∈ (triTable.getD 1 Neighbors.dflt).n_ :=
  neighborTable_symmetric 3 triPolygons triTable rfl 1 2 (by decide)
    (by decide)

/-!
## Claims C4, C5, C6, C7, C8, C9, C10
-/

/-- C4 (counterexample): the claim that `Contact::operator==` matches on
*every* component including the nearest-point pair is false: `contactA`
and `contactB` compare equal although their nearest-point pairs differ. -/
theorem contact_eq_ignores_nearest_points :
    Contact.eqOp contactA contactB ∧
      contactA.nearest_points ≠ contactB.nearest_points := by
  decide

/-- C4 (amended): `Contact::operator==` is a component-wise exact match on
the geometry pair `o1`/`o2`, the primitive-id pair `b1`/`b2`, `normal`,
`pos` and `penetration_depth`; the nearest-point pair is the one field it
does not compare, so two contacts are `==`-equal iff they agree exactly on
every field other than `nearest_points`. -/
theorem contact_eq_componentwise (a b : Contact) :
    Contact.eqOp a b ↔ a = { b with nearest_points := a.nearest_points } := by
  cases a; cases b
  simp only [Contact.eqOp, Contact.mk.injEq, and_true, true_and]

/-- C5: `CollisionResult::getContact(i)` fails with the invalid-argument
error for every index when no contact is stored; with `N ≥ 1` contacts it
returns contact `i` when `i < N` and contact `N - 1` (the last one,
without failing) when `i ≥ N`. -/
theorem getContact_spec (r : CollisionResult) (i : Nat) :
    (r.contacts = [] →
      r.getContact i = Except.error CollisionResult.contactsEmptyMsg) ∧
    (i < r.contacts.length →
      r.getContact i = Except.ok (r.contacts.getD i Contact.dflt)) ∧
    (r.contacts ≠ [] → r.contacts.length ≤ i →
      r.getContact i =
        Except.ok (r.contacts.getD (r.contacts.length - 1) Contact.dflt)) := by
  refine ⟨?_, ?_, ?_⟩
  · intro h
    simp [CollisionResult.getContact, h]
  · intro hi
    have hne : ¬ r.contacts.length = 0 := by omega
    simp [CollisionResult.getContact, hne, hi]
  · intro hne hle
    have h0 : ¬ r.contacts.length = 0 := by
      simpa [List.length_eq_zero] using hne
    have hni : ¬ i < r.contacts.length := by omega
    simp [CollisionResult.getContact, h0, hni, getLastD_eq_getD,
      List.getLast?_eq_getElem?, List.getD_eq_getElem?_getD]

/-- C5 (witness): on a result holding two contacts, the out-of-range index
5 clamps to the last contact without failing. -/
theorem getContact_spec_witness :
    crTwo.getContact 5 =
      Except.ok (crTwo.contacts.getD (crTwo.contacts.length - 1) Contact.dflt) :=
  (getContact_spec crTwo 5).2.2 (by decide) (by decide)

/-- C6: `clear()` on a `CollisionResult` in any prior state restores the
construction-time accumulator defaults — zero contacts, the
`numeric_limits::max()` sentinel (the spec's "+infinity") as
`distance_lower_bound`, cleared timings — and is idempotent; likewise
`DistanceResult::clear()` restores `min_distance` to the sentinel and is
idempotent. -/
theorem clear_resets_accumulators (cr : CollisionResult) (dr : DistanceResult) :
    cr.clear.numContacts = 0 ∧
    cr.clear.distance_lower_bound = FCL_REAL_max ∧
    cr.clear.timings = CPUTimes.cleared ∧
    cr.clear.clear = cr.clear ∧
    dr.clear.min_distance = FCL_REAL_max ∧
    dr.clear.timings = CPUTimes.cleared ∧
    dr.clear.clear = dr.clear :=
  ⟨rfl, rfl, rfl, rfl, rfl, rfl, rfl⟩

/-- C7: each `updateDistanceLowerBound(candidate)` call keeps the minimum
of the current lower bound and the candidate, so over any call sequence
the lower bound is monotonically non-increasing and is never overwritten
by a larger value. -/
theorem updateDistanceLowerBound_min (r : CollisionResult) (d : FCL_REAL)
    (ds es : List FCL_REAL) :
    (r.updateDistanceLowerBound d).distance_lower_bound =
      min r.distance_lower_bound d ∧
    ((ds ++ es).foldl CollisionResult.updateDistanceLowerBound r).distance_lower_bound ≤
      (ds.foldl CollisionResult.updateDistanceLowerBound r).distance_lower_bound := by
  refine ⟨dlb_update_eq_min r d, ?_⟩
  rw [List.foldl_append, dlb_foldl]
  exact foldl_min_le_init es _

/-- C8: on the unit cube (vertices at `(±0.5, ±0.5, ±0.5)`, six outward
quadrilateral faces), the centroid-fan `computeVolume()` — the sum of the
six-times-signed-volumes divided by 6 — returns exactly 1, and
`computeCOM()` returns the origin. -/
theorem unit_cube_volume_com :
    computeVolume cubePoints cubePolygons = 1 ∧
    computeCOM cubePoints cubePolygons = Vec3f.zero := by
  constructor
  · decide
  · decide

/-- C9 (counterexample): a request whose caching mode does *not* select
cached warm-starting (it is `DefaultGuess`) still has its cached guess
overwritten by `updateGuess` when the deprecated `enable_cached_gjk_guess`
flag is set, contradicting the claim that both fields are left unchanged
whenever the caching mode does not select cached warm-starting. -/
theorem updateGuess_deprecated_flag_copies :
    reqFlagOnly.gjk_initial_guess ≠ GJKInitialGuess.CachedGuess ∧
    (reqFlagOnly.updateGuess resNine).cached_gjk_guess ≠
      reqFlagOnly.cached_gjk_guess ∧
    (reqFlagOnly.updateGuess resNine).cached_gjk_guess =
      resNine.cached_gjk_guess := by
  decide

/-- C9 (amended): `updateGuess(result)` copies the result's cached
direction vector and support hint into the request when the caching mode
selects cached warm-starting *or* the deprecated
`enable_cached_gjk_guess` flag is set, and leaves the request entirely
unchanged when neither holds. -/
theorem updateGuess_copy_iff (req : QueryRequest) (res : QueryResult) :
    ((req.gjk_initial_guess = GJKInitialGuess.CachedGuess ∨
        req.enable_cached_gjk_guess = true) →
      (req.updateGuess res).cached_gjk_guess = res.cached_gjk_guess ∧
      (req.updateGuess res).cached_support_func_guess =
        res.cached_support_func_guess) ∧
    ((req.gjk_initial_guess ≠ GJKInitialGuess.CachedGuess ∧
        req.enable_cached_gjk_guess = false) →
      req.updateGuess res = req) := by
  unfold QueryRequest.updateGuess
  by_cases h1 : req.gjk_initial_guess = GJKInitialGuess.CachedGuess <;>
    by_cases h2 : req.enable_cached_gjk_guess = true <;>
      simp [h1, h2]

/-- C9 (witness): with the deprecated flag set the cached guess is indeed
copied. -/
theorem updateGuess_copy_iff_witness :
    (reqFlagOnly.updateGuess resNine).cached_gjk_guess =
      resNine.cached_gjk_guess ∧
    (reqFlagOnly.updateGuess resNine).cached_support_func_guess =
      resNine.cached_support_func_guess :=
  (updateGuess_copy_iff reqFlagOnly resNine).1 (Or.inr (by decide))

/-- A single update whose distance is exactly the construction-time
sentinel `numeric_limits<FCL_REAL>::max()` (DBL_MAX, a representable
double), with non-default object and primitive identities. -/
def uSentinel : DistUpdateArgs :=
  { distance := FCL_REAL_max, o1 := some 1, o2 := some 2, b1 := 7, b2 := 8,
    p1 := ⟨1, 0, 0⟩, p2 := ⟨2, 0, 0⟩, normal := ⟨0, 0, 1⟩ }

/-- C2 (counterexample): after construction, the single call
`update(uSentinel)` yields a `min_distance` equal to the minimum of the
distance sequence, yet the associated fields are *not* the arguments of
that (unique, minimum-producing) call: `b1` keeps its construction default
`-1` instead of the call's `7`, because `min_distance > distance` is false
at `DBL_MAX > DBL_MAX` and nothing is replaced. -/
theorem distanceUpdate_sentinel_counterexample :
    uSentinel.distance = minListD [uSentinel.distance] ∧
    (DistanceResult.init.update uSentinel).min_distance =
      minListD [uSentinel.distance] ∧
    (DistanceResult.init.update uSentinel).b1 ≠ uSentinel.b1 := by
  decide

/-- C2 (amended): an `update` call replaces `min_distance` and all
associated fields together iff its distance is strictly smaller than the
current `min_distance`, and changes nothing otherwise.  Consequently, for
any nonempty call sequence with representable distances
(`dᵢ ≤ FCL_REAL_max`) applied after construction, the final
`min_distance` is `min(d₁, …, dₙ)`; and provided that minimum is strictly
below the construction sentinel `FCL_REAL_max`, the final associated
fields are the arguments of the (first) call that produced it (when every
`dᵢ` equals the sentinel, no call replaces anything and the fields retain
their construction defaults). -/
theorem distanceResult_update_protocol (us : List DistUpdateArgs)
    (r : DistanceResult) (u : DistUpdateArgs) :
    (u.distance < r.min_distance →
      r.update u =
        { r with min_distance := u.distance, o1 := u.o1, o2 := u.o2,
                 b1 := u.b1, b2 := u.b2, nearest_points := (u.p1, u.p2),
                 normal := u.normal }) ∧
    (r.min_distance ≤ u.distance → r.update u = r) ∧
    (us ≠ [] → (∀ v ∈ us, v.distance ≤ FCL_REAL_max) →
      (us.foldl DistanceResult.update DistanceResult.init).min_distance =
        minListD (us.map DistUpdateArgs.distance) ∧
      (minListD (us.map DistUpdateArgs.distance) < FCL_REAL_max →
        ∃ i, i < us.length ∧
          (us.getD i DistUpdateArgs.dflt).distance =
            minListD (us.map DistUpdateArgs.distance) ∧
          (∀ j, j < i →
            minListD (us.map DistUpdateArgs.distance) <
              (us.getD j DistUpdateArgs.dflt).distance) ∧
          (us.foldl DistanceResult.update DistanceResult.init).core =
            (us.getD i DistUpdateArgs.dflt).core)) := by
  refine ⟨update_of_lt r u, update_of_ge r u, ?_⟩
  intro hne hle
  have hmap_ne : us.map DistUpdateArgs.distance ≠ [] := by
    simpa using hne
  have hmap_le : ∀ d ∈ us.map DistUpdateArgs.distance, d ≤ FCL_REAL_max := by
    intro d hd
    rcases List.mem_map.mp hd with ⟨v, hv, rfl⟩
    exact hle v hv
  have hmin : (us.foldl DistanceResult.update DistanceResult.init).min_distance
      = minListD (us.map DistUpdateArgs.distance) := by
    rw [minDist_foldl]
    exact foldl_min_from_max _ hmap_ne hmap_le
  refine ⟨hmin, ?_⟩
  intro hlt
  rcases update_run_cases us DistanceResult.init with ⟨heq, _⟩ |
    ⟨i, hi, hd, _, hfirst, hc⟩
  · exfalso
    rw [heq] at hmin
    exact absurd (hmin ▸ hlt) (lt_irrefl _)
  · exact ⟨i, hi, hmin ▸ hd, fun j hj => hmin ▸ hfirst j hj, hc⟩

/-- Three update calls with distances 5, 3, 4 and distinct identities. -/
def usThree : List DistUpdateArgs :=
  [{ distance := 5, o1 := some 10, o2 := some 11, b1 := 1, b2 := 2,
     p1 := ⟨1, 0, 0⟩, p2 := ⟨6, 0, 0⟩, normal := ⟨1, 0, 0⟩ },
   { distance := 3, o1 := some 20, o2 := some 21, b1 := 3, b2 := 4,
     p1 := ⟨2, 0, 0⟩, p2 := ⟨5, 0, 0⟩, normal := ⟨0, 1, 0⟩ },
   { distance := 4, o1 := some 30, o2 := some 31, b1 := 5, b2 := 6,
     p1 := ⟨3, 0, 0⟩, p2 := ⟨7, 0, 0⟩, normal := ⟨0, 0, 1⟩ }]

/-- C2 (witness): for the distances (5, 3, 4) the final minimum is 3 and
the final fields are those of the second call. -/
theorem distanceResult_update_protocol_witness :
    (usThree.foldl DistanceResult.update DistanceResult.init).min_distance =
      minListD (usThree.map DistUpdateArgs.distance) ∧
    (minListD (usThree.map DistUpdateArgs.distance) < FCL_REAL_max →
      ∃ i, i < usThree.length ∧
        (usThree.getD i DistUpdateArgs.dflt).distance =
          minListD (usThree.map DistUpdateArgs.distance) ∧
        (∀ j, j < i →
          minListD (usThree.map DistUpdateArgs.distance) <
            (usThree.getD j DistUpdateArgs.dflt).distance) ∧
        (usThree.foldl DistanceResult.update DistanceResult.init).core =
          (usThree.getD i DistUpdateArgs.dflt).core) :=
  (distanceResult_update_protocol usThree DistanceResult.init
      DistUpdateArgs.dflt).2.2 (by decide) (by decide)

/-- C10: `clear()` on either result type leaves the inherited warm-start
cache fields `cached_gjk_guess` and `cached_support_func_guess` untouched,
so a cached guess survives a clear between queries. -/
theorem clear_preserves_cached_guess (cr : CollisionResult)
    (dr : DistanceResult) :
    cr.clear.cached_gjk_guess = cr.cached_gjk_guess ∧
    cr.clear.cached_support_func_guess = cr.cached_support_func_guess ∧
    dr.clear.cached_gjk_guess = dr.cached_gjk_guess ∧
    dr.clear.cached_support_func_guess = dr.cached_support_func_guess :=
  ⟨rfl, rfl, rfl, rfl⟩

end Coal
